import Mathlib

/-!
Verification development for the fasttrackml server core:
the namespace-scoped authorization middleware chain built by `createApp`
(pkg/server/server.go), the namespace store uniqueness contract, the
fallible server construction sequence, and the aim2 project/tag/param
data-access services.

Pure Go functions are embedded as Lean functions; database and network
effects are passed in explicitly as `Except` outcomes; the middleware
chain is embedded as an ordered list of tagged steps with a small-step
request pipeline.  Components whose implementation lives outside the
available sources (the namespace/role middleware bodies and the
namespace store) are modelled from the spec, and are marked as such in
their doc comments.
-/

namespace FTML

/-! ## Auth configuration and the middleware chain (pkg/server/server.go) -/

/-- Auth mode selector, mirroring `config.Auth.AuthType`
(`IsAuthTypeOIDC` / `IsAuthTypeUser`, with no auth as the default). -/
inductive AuthType
  | noAuth
  | user
  | oidc
deriving DecidableEq

/-- One entry of the static YAML users file (`auth.YamlUserConfig`):
a user name, the list of role strings granted to it, and a password. -/
structure YamlUserConfig where
  name : String
  roles : List String
  password : String
deriving DecidableEq

/-- The slice of `config.Config` consulted by `createApp` when attaching
global middlewares: dev mode, the shared Basic-Auth credential pair, the
auth mode, and the parsed per-user permissions. -/
structure Config where
  devMode : Bool
  authUsername : String
  authPassword : String
  authType : AuthType
  authUsers : List YamlUserConfig
deriving DecidableEq

/-- Tags for the global middlewares `createApp` attaches with `app.Use`. -/
inductive Middleware
  | cors
  | sharedBasicAuth
  | namespaceMw
  | oidcMw
  | userBasicAuthMw
  | compress
  | recoverMw
  | loggerMw
deriving DecidableEq

/-- The ordered list of global middlewares attached by `createApp`
(pkg/server/server.go, lines 167-235): CORS in dev mode, then the shared
Basic-Auth middleware whenever both `AuthUsername` and `AuthPassword` are
non-empty, then the namespace middleware, then (by auth type) the OIDC or
per-user Basic-Auth middleware, then compression, recovery and logging. -/
def appMiddlewares (c : Config) : List Middleware :=
  (if c.devMode then [Middleware.cors] else []) ++
  (if c.authUsername ≠ "" ∧ c.authPassword ≠ "" then [Middleware.sharedBasicAuth] else []) ++
  [Middleware.namespaceMw] ++
  (match c.authType with
    | AuthType.oidc => [Middleware.oidcMw]
    | AuthType.user => [Middleware.userBasicAuthMw]
    | AuthType.noAuth => []) ++
  [Middleware.compress, Middleware.recoverMw, Middleware.loggerMw]

/-- Position of the first occurrence of a middleware tag in a chain
(the chain's length when the tag is absent). -/
def idxOf : List Middleware → Middleware → Nat
  | [], _ => 0
  | m :: rest, t => if m = t then 0 else idxOf rest t + 1

/-- The middlewares `createApp` attaches before the namespace middleware:
CORS in dev mode and the shared Basic-Auth check when configured. -/
def mwPre (c : Config) : List Middleware :=
  (if c.devMode then [Middleware.cors] else []) ++
  (if c.authUsername ≠ "" ∧ c.authPassword ≠ "" then [Middleware.sharedBasicAuth] else [])

/-- The identity middleware selected by the auth mode, attached right
after the namespace middleware. -/
def mwAuth (c : Config) : List Middleware :=
  match c.authType with
  | AuthType.oidc => [Middleware.oidcMw]
  | AuthType.user => [Middleware.userBasicAuthMw]
  | AuthType.noAuth => []

/-! ## Requests, credentials and rejection payloads -/

/-- Credentials accompanying a request: none, a Basic-Auth pair, or an
OIDC bearer token. -/
inductive Credentials
  | anonymous
  | basic (user pass : String)
  | bearer (token : String)
deriving DecidableEq

/-- An incoming request, reduced to the data the authorization chain
consults: the targeted namespace code and the credentials. -/
structure Request where
  namespaceCode : String
  creds : Credentials
deriving DecidableEq

/-- A machine-readable error payload (`api.ErrorResponse`): a stable
reason code plus a human-readable message. -/
structure ErrorResponse where
  code : String
  message : String
deriving DecidableEq

/-- Modelled from the spec and the integration-test expectations
(`TestAIMAuth_Ok`): both a namespace-lookup miss and an authorization
miss are surfaced with reason code `RESOURCE_DOES_NOT_EXIST` and message
`unable to find namespace with code: <code>`. -/
def namespaceNotFoundResponse (code : String) : ErrorResponse :=
  { code := "RESOURCE_DOES_NOT_EXIST"
    message := "unable to find namespace with code: " ++ code }

/-- Terminal rejection outcomes a middleware can produce.  `forbidden`
is part of the outcome vocabulary only so that we can state that the
chain never produces it. -/
inductive Rejection
  | unauthorized
  | notFound (payload : ErrorResponse)
  | forbidden (payload : ErrorResponse)
deriving DecidableEq

/-! ## Role lookups (modelled from the spec) -/

/-- The role string that marks a role as admin. -/
def adminRole : String := "admin"

/-- Modelled from the spec: a role string of the users file grants a
namespace code when it is the code marked with the `ns:` marker. -/
def roleGrantsNamespace (role : String) (code : String) : Bool :=
  role = "ns:" ++ code

/-- Modelled from the spec: a user is an admin when any of its bound
roles is the admin sentinel; admin in any role implies full access
regardless of other bindings. -/
def isAdminUser (users : List YamlUserConfig) (u : String) : Bool :=
  users.any fun e => e.name = u && e.roles.contains adminRole

/-- Modelled from the spec: the union over all of the user's entries of
the namespace codes granted by their role strings. -/
def permitsNamespace (users : List YamlUserConfig) (u code : String) : Bool :=
  users.any fun e => e.name = u && e.roles.any fun r => roleGrantsNamespace r code

/-- Modelled from the spec: the permission check consulted by the
identity middlewares — admin grants everything, otherwise the namespace
code must be granted by one of the user's roles. -/
def authorizeUser (users : List YamlUserConfig) (u code : String) : Bool :=
  isAdminUser users u || permitsNamespace users u code

/-- First users-file entry carrying the given user name. -/
def lookupUser (users : List YamlUserConfig) (u : String) : Option YamlUserConfig :=
  users.find? fun e => e.name = u

/-! ## The per-request pipeline -/

/-- The environment a request is processed against: the codes of the
namespaces currently in the cached namespace repository, and the OIDC
token validator (`none` = invalid token). -/
structure Env where
  namespaces : List String
  oidcIdentity : String → Option String

/-- Modelled from the spec: the behaviour of each middleware on one
request.  `none` means the request continues down the chain.
The shared Basic-Auth middleware rejects 401 unless the configured pair
is presented; the namespace middleware rejects an unknown code with the
`RESOURCE_DOES_NOT_EXIST` payload; the per-user and OIDC middlewares
authenticate and then authorize, surfacing an authorization miss with
the same payload as a namespace miss. -/
def mwStep (c : Config) (env : Env) (req : Request) : Middleware → Option Rejection
  | Middleware.cors => none
  | Middleware.compress => none
  | Middleware.recoverMw => none
  | Middleware.loggerMw => none
  | Middleware.sharedBasicAuth =>
      match req.creds with
      | Credentials.basic u p =>
          if u = c.authUsername ∧ p = c.authPassword then none
          else some Rejection.unauthorized
      | _ => some Rejection.unauthorized
  | Middleware.namespaceMw =>
      if req.namespaceCode ∈ env.namespaces then none
      else some (Rejection.notFound (namespaceNotFoundResponse req.namespaceCode))
  | Middleware.userBasicAuthMw =>
      match req.creds with
      | Credentials.basic u p =>
          match lookupUser c.authUsers u with
          | some entry =>
              if entry.password = p then
                if authorizeUser c.authUsers u req.namespaceCode then none
                else some (Rejection.notFound (namespaceNotFoundResponse req.namespaceCode))
              else some Rejection.unauthorized
          | none => some Rejection.unauthorized
      | _ => some Rejection.unauthorized
  | Middleware.oidcMw =>
      match req.creds with
      | Credentials.bearer t =>
          match env.oidcIdentity t with
          | some u =>
              if authorizeUser c.authUsers u req.namespaceCode then none
              else some (Rejection.notFound (namespaceNotFoundResponse req.namespaceCode))
          | none => some Rejection.unauthorized
      | _ => some Rejection.unauthorized

/-- Result of running the chain on one request. -/
inductive PipelineResult
  | proceed
  | rejected (r : Rejection)
deriving DecidableEq

/-- Run a middleware chain: the first rejection is terminal. -/
def runChain (c : Config) (env : Env) (req : Request) : List Middleware → PipelineResult
  | [] => PipelineResult.proceed
  | mw :: rest =>
      match mwStep c env req mw with
      | some r => PipelineResult.rejected r
      | none => runChain c env req rest

/-- Run a request through the chain built by `createApp`. -/
def runPipeline (c : Config) (env : Env) (req : Request) : PipelineResult :=
  runChain c env req (appMiddlewares c)

/-! ## Concrete fixtures (from the integration tests and the spec's
end-to-end scenario) -/

/-- The three users of the spec's end-to-end scenario. -/
def testUsers : List YamlUserConfig :=
  [ { name := "user1", roles := [r"ns:ns1", r"ns:ns2"], password := "user1password" },
    { name := "user2", roles := [r"ns:ns2", r"ns:ns3"], password := "user2password" },
    { name := "user3", roles := [r"admin"], password := "user3password" } ]

/-- Per-user auth mode, no shared Basic-Auth pair configured. -/
def userModeConfig : Config :=
  { devMode := false
    authUsername := ""
    authPassword := ""
    authType := AuthType.user
    authUsers := testUsers }

/-- Shared Basic-Auth pair configured, no per-user scheme. -/
def sharedAuthConfig : Config :=
  { devMode := false
    authUsername := "adminuser"
    authPassword := "secret"
    authType := AuthType.noAuth
    authUsers := [] }

/-- Environment with namespaces ns1, ns2, ns3 and no valid OIDC token. -/
def testEnv : Env :=
  { namespaces := [r"ns1", r"ns2", r"ns3"]
    oidcIdentity := fun _ => none }

/-! ## Namespace store (modelled from the spec) -/

/-- A namespace record (`models.Namespace`): immutable numeric ID, code,
description, default-experiment reference, and an active flag standing
for "not soft-deleted". -/
structure Namespace where
  id : Nat
  code : String
  description : String
  defaultExperimentID : Int
  isActive : Bool
deriving DecidableEq

/-- Store-layer error taxonomy relevant to the namespace store. -/
inductive StoreError
  | constraintViolation
  | notFound
deriving DecidableEq

/-- Modelled from the spec: the Namespace Store's `Create` — the new code
must be non-empty and unused by every other active namespace, otherwise
the operation fails with `ConstraintViolation` and the store is left
untouched. -/
def storeCreate (store : List Namespace) (ns : Namespace) : Except StoreError (List Namespace) :=
  if ns.code = "" then Except.error StoreError.constraintViolation
  else if store.any (fun m => m.isActive && m.code == ns.code) then
    Except.error StoreError.constraintViolation
  else Except.ok (store ++ [ns])

/-- Modelled from the spec: the Namespace Store's `Update` — the target
must exist, and code uniqueness is re-checked against every other active
namespace; on any failure the store is left untouched. -/
def storeUpdate (store : List Namespace) (id : Nat) (newCode newDescription : String) :
    Except StoreError (List Namespace) :=
  match store.find? (fun m => m.id == id) with
  | none => Except.error StoreError.notFound
  | some _ =>
      if newCode = "" then Except.error StoreError.constraintViolation
      else if store.any (fun m => m.isActive && (m.id != id) && (m.code == newCode)) then
        Except.error StoreError.constraintViolation
      else
        Except.ok (store.map fun m =>
          if m.id = id then { m with code := newCode, description := newDescription } else m)

/-- The store visible after an operation: the new store on success, the
original one when the operation failed (atomicity). -/
def storeAfter (store : List Namespace) (r : Except StoreError (List Namespace)) :
    List Namespace :=
  match r with
  | Except.ok s => s
  | Except.error _ => store

/-! ## Server construction (pkg/server/server.go) -/

/-- True exactly on an `error` outcome. -/
def isErr {ε α : Type} : Except ε α → Bool
  | Except.error _ => true
  | Except.ok _ => false

/-- A role record as held by the cached role repository. -/
structure Role where
  name : String
  namespaceCodes : List String
  users : List String
deriving DecidableEq

/-- The cached namespace repository's state after construction. -/
structure NamespaceCache where
  entries : List Namespace
deriving DecidableEq

/-- The cached role repository's state after construction. -/
structure RoleCache where
  entries : List Role
deriving DecidableEq

/-- The constructed fiber application, reduced to its middleware chain. -/
structure App where
  middlewares : List Middleware
deriving DecidableEq

/-- Modelled from the spec: `NewNamespaceCachedRepository` performs a
full synchronous load of all namespaces before becoming ready, and
construction fails when that initial load fails (the constructor body
lives outside the available sources). -/
def NewNamespaceCachedRepository (loadRes : Except String (List Namespace)) :
    Except String NamespaceCache :=
  match loadRes with
  | Except.error e => Except.error e
  | Except.ok nss => Except.ok { entries := nss }

/-- Modelled from the spec: `NewRoleCachedRepository`, with the identical
construction-time full-load discipline as the namespace cache. -/
def NewRoleCachedRepository (loadRes : Except String (List Role)) :
    Except String RoleCache :=
  match loadRes with
  | Except.error e => Except.error e
  | Except.ok rs => Except.ok { entries := rs }

/-- Shallow embedding of `createApp`'s fallible construction sequence
(pkg/server/server.go, lines 132-341).  Each collaborator's outcome is a
parameter: the namespace notification listener, the two cache loads, the
OIDC client (consulted only in OIDC mode), and the admin/chooser route
initialisers.  Sequencing and error wrapping follow the source. -/
def createApp (c : Config)
    (listenerRes : Except String Unit)
    (namespaceLoadRes : Except String (List Namespace))
    (roleLoadRes : Except String (List Role))
    (oidcClientRes : Except String Unit)
    (adminRoutesRes : Except String Unit)
    (chooserRoutesRes : Except String Unit) : Except String App :=
  match listenerRes with
  | Except.error e => Except.error ("error creating namespace notification listener: " ++ e)
  | Except.ok _ =>
    match NewNamespaceCachedRepository namespaceLoadRes with
    | Except.error e => Except.error ("error creating namespace repository: " ++ e)
    | Except.ok _ =>
      match NewRoleCachedRepository roleLoadRes with
      | Except.error e => Except.error ("error creating roles repository: " ++ e)
      | Except.ok _ =>
        let oidcStep : Except String Unit :=
          match c.authType with
          | AuthType.oidc => oidcClientRes
          | _ => Except.ok ()
        match oidcStep with
        | Except.error e => Except.error ("error creating OIDC client: " ++ e)
        | Except.ok _ =>
          match adminRoutesRes with
          | Except.error e => Except.error ("error initializing admin routes: " ++ e)
          | Except.ok _ =>
            match chooserRoutesRes with
            | Except.error e => Except.error ("error initializing chooser routes: " ++ e)
            | Except.ok _ => Except.ok { middlewares := appMiddlewares c }

/-- Shallow embedding of `NewServer` (pkg/server/server.go, lines
67-88): artifact storage factory, then database provider, then
`createApp`; the first error aborts construction and no server value is
produced. -/
def NewServer (c : Config)
    (storageRes : Except String Unit)
    (dbRes : Except String Unit)
    (listenerRes : Except String Unit)
    (namespaceLoadRes : Except String (List Namespace))
    (roleLoadRes : Except String (List Role))
    (oidcClientRes : Except String Unit)
    (adminRoutesRes : Except String Unit)
    (chooserRoutesRes : Except String Unit) : Except String App :=
  match storageRes with
  | Except.error e => Except.error ("error creating artifact storage factory: " ++ e)
  | Except.ok _ =>
    match dbRes with
    | Except.error e => Except.error e
    | Except.ok _ =>
      match createApp c listenerRes namespaceLoadRes roleLoadRes
          oidcClientRes adminRoutesRes chooserRoutesRes with
      | Except.error e => Except.error ("error creating application: " ++ e)
      | Except.ok app => Except.ok app

/-! ## Tag repository (pkg/api/aim2/dao/repositories/tag.go) -/

/-- A tag row (`models.Tag`). -/
structure Tag where
  key : String
  value : String
  runUUID : String
deriving DecidableEq

/-- Shallow embedding of `TagRepository.GetTagsByNamespace` (tag.go,
lines 49-55).  The database fetch outcome is the parameter; the
`namespaceID` argument is accepted and ignored exactly as in the source,
and on a successful fetch the fetched rows are discarded and the empty
list is returned. -/
def GetTagsByNamespace (_namespaceID : Nat) (fetchRes : Except String (List Tag)) :
    Except String (List Tag) :=
  match fetchRes with
  | Except.error e => Except.error e
  | Except.ok _ => Except.ok []

/-! ## Param repository (pkg/api/aim2/dao/repositories/param part of the
project service source file) -/

/-- A param row (`models.Param`): the composite unique key is
`(run_uuid, key)`. -/
structure Param where
  runUUID : String
  key : String
  value : String
deriving DecidableEq

/-- Two params collide on the `(run_uuid, key)` unique columns. -/
def sameRunKey (a b : Param) : Bool :=
  a.runUUID == b.runUUID && a.key == b.key

/-- A conflicting parameter as surfaced by `findConflictingParams`
(`paramConflict` in the source). -/
structure ParamConflict where
  runID : String
  key : String
  oldValue : String
  newValue : String
deriving DecidableEq

/-- Go's rendering of a `paramConflict` for the error message. -/
def ParamConflict.render (pc : ParamConflict) : String :=
  "\x7brun_id: " ++ pc.runID ++ ", key: " ++ pc.key ++ ", old_value: " ++ pc.oldValue ++
    ", new_value: " ++ pc.newValue ++ "\x7d"

/-- The error returned on a param conflict (`ParamConflictError`). -/
structure ParamConflictError where
  message : String
deriving DecidableEq

/-- The `ON CONFLICT (run_uuid, key) DO NOTHING` batch insert run by
`CreateBatch` (gorm's `CreateInBatches` under the `OnConflict` clause):
each row is inserted unless a row with its `(run_uuid, key)` already
sits in the table; the second component is the number of rows actually
inserted (gorm's accumulated `RowsAffected`).  Partitioning into batches
of `batchSize` does not change the per-row outcome, so the insert is
embedded row by row. -/
def insertBatch : List Param → List Param → List Param × Nat
  | table, [] => (table, 0)
  | table, p :: rest =>
      if table.any (fun q => sameRunKey q p) then insertBatch table rest
      else
        let r := insertBatch (table ++ [p]) rest
        (r.1, r.2 + 1)

/-- Shallow embedding of `findConflictingParams`: the SQL joins the
`params` table as it stands inside the transaction (`table`) with the
input rows on `(run_uuid, key)` and keeps the pairs whose values differ,
reporting the current value as old and the input value as new. -/
def findConflictingParams (table : List Param) (ps : List Param) : List ParamConflict :=
  ps.filterMap fun p =>
    match table.find? (fun q => sameRunKey q p) with
    | some q =>
        if q.value ≠ p.value then
          some { runID := p.runUUID, key := p.key, oldValue := q.value, newValue := p.value }
        else none
    | none => none

/-- Shallow embedding of `ParamRepository.CreateBatch`: the
conflict-ignoring insert, then — only when fewer rows were inserted than
supplied — the conflict probe; a non-empty conflict list aborts the
transaction with `ParamConflictError`.  On success the new table is
returned; the transaction wrapper makes an error leave the table
untouched (see `paramsTableAfter`). -/
def CreateBatch (table : List Param) (ps : List Param) : Except ParamConflictError (List Param) :=
  let inserted := insertBatch table ps
  if inserted.2 ≠ ps.length then
    let conflicts := findConflictingParams inserted.1 ps
    if conflicts ≠ [] then
      Except.error
        { message := "conflicting params found: [" ++
            String.intercalate (" ") (conflicts.map ParamConflict.render) ++ "]" }
    else Except.ok inserted.1
  else Except.ok inserted.1

/-- The params table visible after the call: the transaction commits the
inserted rows on success and rolls them back on error. -/
def paramsTableAfter (table : List Param) (ps : List Param) : List Param :=
  match CreateBatch table ps with
  | Except.ok t => t
  | Except.error _ => table

/-- The `(run_uuid, key)` unique constraint of the `params` table:
distinct rows never collide on the composite key. -/
def uniqueRunKeys (table : List Param) : Prop :=
  table.Pairwise fun a b => sameRunKey a b = false

/-! ## Project service (pkg/api/aim2/services/project/service.go) -/

/-- A run's lifecycle stage (`models.LifecycleStage`). -/
inductive LifecycleStage
  | active
  | deleted
deriving DecidableEq

/-- A run's status (`models.Status`). -/
inductive RunStatus
  | running
  | scheduled
  | finished
  | failed
  | killed
deriving DecidableEq

/-- A run as consulted by `GetProjectActivity`: start time in Unix
milliseconds, lifecycle stage, status. -/
structure Run where
  startTime : Int
  lifecycleStage : LifecycleStage
  status : RunStatus
deriving DecidableEq

/-- The hour bucket of a run's start time after applying the timezone
offset (minutes): the source formats
`time.UnixMilli(start).Add(-tzOffset minutes)` with layout
`2006-01-02T15:00:00`, which truncates to the hour; the formatted string
is in bijection with this hour index, which the embedding uses as the
map key. -/
def activityKey (tzOffset : Int) (r : Run) : Int :=
  (r.startTime - tzOffset * 60000).fdiv 3600000

/-- `activity[key] += 1` on an association-list map. -/
def bump (m : List (Int × Nat)) (k : Int) : List (Int × Nat) :=
  match m with
  | [] => [(k, 1)]
  | (k₂, v) :: rest => if k₂ = k then (k₂, v + 1) :: rest else (k₂, v) :: bump rest k

/-- Sum of the counters of an activity map. -/
def sumValues (m : List (Int × Nat)) : Nat :=
  (m.map Prod.snd).sum

/-- The loop body of `GetProjectActivity` (service.go, lines 57-66):
a deleted run counts as archived, otherwise a running run counts as
active, and every run bumps its hour bucket. -/
def activityLoop (tzOffset : Int) (runs : List Run) (activity : List (Int × Nat))
    (numActiveRuns numArchivedRuns : Int) : List (Int × Nat) × Int × Int :=
  match runs with
  | [] => (activity, numActiveRuns, numArchivedRuns)
  | r :: rest =>
      if r.lifecycleStage = LifecycleStage.deleted then
        activityLoop tzOffset rest (bump activity (activityKey tzOffset r))
          numActiveRuns (numArchivedRuns + 1)
      else if r.status = RunStatus.running then
        activityLoop tzOffset rest (bump activity (activityKey tzOffset r))
          (numActiveRuns + 1) numArchivedRuns
      else
        activityLoop tzOffset rest (bump activity (activityKey tzOffset r))
          numActiveRuns numArchivedRuns

/-- A run the loop counts as archived: its lifecycle stage is deleted. -/
def isArchivedRun (r : Run) : Bool :=
  r.lifecycleStage == LifecycleStage.deleted

/-- A run the loop counts as active: not deleted (the deleted case of
the switch takes precedence) and with running status. -/
def isActiveRun (r : Run) : Bool :=
  !(r.lifecycleStage == LifecycleStage.deleted) && (r.status == RunStatus.running)

/-- `models.ProjectActivity`, with the hour-bucket map keyed by the hour
index standing for the formatted timestamp. -/
structure ProjectActivity where
  numRuns : Int
  activityMap : List (Int × Nat)
  numActiveRuns : Int
  numExperiments : Int
  numArchivedRuns : Int
deriving DecidableEq

/-- Shallow embedding of `Service.GetProjectActivity` (service.go, lines
49-80): the run fetch and the active-experiment count are parameters;
a failed fetch is wrapped into an internal error, otherwise the loop
above aggregates and the totals are reported. -/
def GetProjectActivity (runsRes : Except String (List Run))
    (numActiveExperimentsRes : Except String Int) (tzOffset : Int) :
    Except String ProjectActivity :=
  match runsRes with
  | Except.error e => Except.error ("error getting runs: " ++ e)
  | Except.ok runs =>
    match numActiveExperimentsRes with
    | Except.error e => Except.error ("error getting number of active experiments: " ++ e)
    | Except.ok numExp =>
      let acc := activityLoop tzOffset runs [] 0 0
      Except.ok
        { numRuns := (runs.length : Int)
          activityMap := acc.1
          numActiveRuns := acc.2.1
          numExperiments := numExp
          numArchivedRuns := acc.2.2 }

/-- The aim2 `GetProjectParamsRequest`, reduced to the fields the service
consults after normalisation. -/
structure GetProjectParamsRequest where
  excludeParams : Bool
  sequences : List String
  experimentNames : List String
deriving DecidableEq

/-- `models.ProjectParams`; metric entries are kept abstract as keys. -/
structure ProjectParams where
  paramKeys : List String
  tagKeys : List String
  metrics : List String
deriving DecidableEq

/-- The service-layer error vocabulary relevant here
(`api.NewInternalError` produces the internal variant). -/
inductive ApiError
  | internalError (message : String)
  | validationError (message : String)
deriving DecidableEq

/-- The sequence name that triggers the metric fetch. -/
def metricSequence : String := "metric"

/-- Shallow embedding of `Service.GetProjectParams` (service.go, lines
83-117).  The request arrives already normalised
(`NormaliseGetProjectParamsRequest` runs upstream and is outside the
available sources); the outcome of `ValidateGetProjectsRequest` is the
`validationRes` parameter, and each repository fetch's outcome is a
parameter.  Control flow and error wrapping follow the source: params
and tag keys are fetched only when `ExcludeParams` is unset, metrics
only when the sequences list names `metric`. -/
def GetProjectParams (validationRes : Option ApiError)
    (paramKeysRes tagKeysRes : Except String (List String))
    (metricsRes : Except String (List String))
    (req : GetProjectParamsRequest) : Except ApiError ProjectParams :=
  match validationRes with
  | some e => Except.error e
  | none =>
    let step1 : Except ApiError ProjectParams :=
      if req.excludeParams then
        Except.ok { paramKeys := [], tagKeys := [], metrics := [] }
      else
        match paramKeysRes with
        | Except.error e => Except.error (ApiError.internalError ("error getting param keys: " ++ e))
        | Except.ok pks =>
          match tagKeysRes with
          | Except.error e => Except.error (ApiError.internalError ("error getting tag keys: " ++ e))
          | Except.ok tks => Except.ok { paramKeys := pks, tagKeys := tks, metrics := [] }
    match step1 with
    | Except.error e => Except.error e
    | Except.ok pp =>
      if req.sequences.contains metricSequence then
        match metricsRes with
        | Except.error e => Except.error (ApiError.internalError ("error getting metrics: " ++ e))
        | Except.ok ms => Except.ok { pp with metrics := ms }
      else Except.ok pp

/-! ## Further concrete fixtures for witnesses -/

/-- The users-file entry of user1. -/
def user1Entry : YamlUserConfig :=
  { name := "user1", roles := [r"ns:ns1", r"ns:ns2"], password := "user1password" }

/-- The users-file entry of user3, the admin. -/
def user3Entry : YamlUserConfig :=
  { name := "user3", roles := [r"admin"], password := "user3password" }

/-- The default namespace of the update-namespace test fixture. -/
def nsDefault : Namespace :=
  { id := 1, code := "default", description := "", defaultExperimentID := 0, isActive := true }

/-- The second namespace of the update-namespace test fixture. -/
def nsTest2 : Namespace :=
  { id := 2
    code := "test2"
    description := "test namespace 2 description"
    defaultExperimentID := 0
    isActive := true }

/-- A would-be namespace whose code collides with `nsDefault`. -/
def nsDup : Namespace :=
  { id := 3, code := "default", description := "dup", defaultExperimentID := 0, isActive := true }

/-! ## Helper lemmas -/

theorem idxOf_append_of_not_mem (l1 l2 : List Middleware) (t : Middleware) (h : t ∉ l1) :
    idxOf (l1 ++ l2) t = l1.length + idxOf l2 t := by
  induction l1 with
  | nil => simp [idxOf]
  | cons a l ih =>
      have ha : a ≠ t := fun he => h (he ▸ List.mem_cons_self a l)
      have hl : t ∉ l := fun hm => h (List.mem_cons_of_mem a hm)
      simp only [List.cons_append, idxOf, if_neg ha, List.append_eq, ih hl, List.length_cons]
      omega

theorem idxOf_append_of_mem (l1 l2 : List Middleware) (t : Middleware) (h : t ∈ l1) :
    idxOf (l1 ++ l2) t = idxOf l1 t := by
  induction l1 with
  | nil => exact absurd h (List.not_mem_nil t)
  | cons a l ih =>
      by_cases he : a = t
      · simp [idxOf, he]
      · have hl : t ∈ l := by
          rcases List.mem_cons.1 h with h1 | h1
          · exact absurd h1.symm he
          · exact h1
        simp [idxOf, if_neg he, ih hl]

theorem idxOf_lt_length_of_mem (l : List Middleware) (t : Middleware) (h : t ∈ l) :
    idxOf l t < l.length := by
  induction l with
  | nil => exact absurd h (List.not_mem_nil t)
  | cons a l ih =>
      by_cases he : a = t
      · simp [idxOf, he]
      · have hl : t ∈ l := by
          rcases List.mem_cons.1 h with h1 | h1
          · exact absurd h1.symm he
          · exact h1
        simp only [idxOf, if_neg he, List.length_cons]
        exact Nat.succ_lt_succ (ih hl)

theorem appMiddlewares_decomp (c : Config) :
    appMiddlewares c = mwPre c ++ Middleware.namespaceMw ::
      (mwAuth c ++ [Middleware.compress, Middleware.recoverMw, Middleware.loggerMw]) := by
  simp [appMiddlewares, mwPre, mwAuth, List.append_assoc]

theorem mem_mwPre (c : Config) (t : Middleware) (h : t ∈ mwPre c) :
    t = Middleware.cors ∨
      (t = Middleware.sharedBasicAuth ∧ c.authUsername ≠ "" ∧ c.authPassword ≠ "") := by
  simp only [mwPre] at h
  rcases List.mem_append.1 h with h1 | h1
  · left
    by_cases hd : c.devMode <;> simp [hd] at h1
    exact h1
  · right
    by_cases hsh : c.authUsername ≠ "" ∧ c.authPassword ≠ "" <;> simp [hsh] at h1
    exact ⟨h1, hsh⟩

theorem runChain_append_of_pass (c : Config) (env : Env) (req : Request)
    (l1 l2 : List Middleware) (h : ∀ mw ∈ l1, mwStep c env req mw = none) :
    runChain c env req (l1 ++ l2) = runChain c env req l2 := by
  induction l1 with
  | nil => rfl
  | cons a l ih =>
      simp only [List.cons_append, runChain, h a (List.mem_cons_self a l)]
      exact ih fun mw hm => h mw (List.mem_cons_of_mem a hm)

theorem mwStep_not_forbidden (c : Config) (env : Env) (req : Request) (mw : Middleware)
    (pl : ErrorResponse) : mwStep c env req mw ≠ some (Rejection.forbidden pl) := by
  cases mw <;> cases hc : req.creds <;>
    simp only [mwStep, hc] <;>
    (repeat' split) <;> simp

theorem runChain_not_forbidden (c : Config) (env : Env) (req : Request) (pl : ErrorResponse)
    (l : List Middleware) :
    runChain c env req l ≠ PipelineResult.rejected (Rejection.forbidden pl) := by
  induction l with
  | nil => simp [runChain]
  | cons mw rest ih =>
      simp only [runChain]
      cases hstep : mwStep c env req mw with
      | none => exact ih
      | some r =>
          intro h
          injection h with h2
          exact mwStep_not_forbidden c env req mw pl (h2 ▸ hstep)

/-! ## Claim theorems -/

/-- Claim C1, counterexample: with the shared Basic-Auth credential pair
configured, `createApp` attaches the shared Basic-Auth middleware before
the namespace middleware, so a request naming an absent namespace and
carrying no credentials is rejected 401-unauthorized, not with the
"namespace does not exist" outcome — namespace resolution does not
precede every identity-resolution step. -/
theorem c1_counterexample :
    idxOf (appMiddlewares sharedAuthConfig) Middleware.sharedBasicAuth <
      idxOf (appMiddlewares sharedAuthConfig) Middleware.namespaceMw ∧
    Middleware.sharedBasicAuth ∈ appMiddlewares sharedAuthConfig ∧
    runPipeline sharedAuthConfig testEnv
      { namespaceCode := r"ghost", creds := Credentials.anonymous } =
      PipelineResult.rejected Rejection.unauthorized ∧
    Rejection.unauthorized ≠
      Rejection.notFound (namespaceNotFoundResponse (r"ghost")) := by
  refine ⟨?_, ?_, ?_, ?_⟩ <;> decide

/-- Claim C1, amended: in the chain built by `createApp` the namespace
middleware precedes the per-user Basic-Auth and the OIDC middleware, but
the shared Basic-Auth middleware, when configured, precedes namespace
resolution; hence a request naming an absent namespace is rejected with
the "namespace does not exist" outcome whenever the shared pair is not
configured, or the request carries exactly the shared pair. -/
theorem c1_amended (c : Config) (env : Env) (req : Request)
    (hns : req.namespaceCode ∉ env.namespaces) :
    idxOf (appMiddlewares c) Middleware.namespaceMw <
      idxOf (appMiddlewares c) Middleware.userBasicAuthMw ∧
    idxOf (appMiddlewares c) Middleware.namespaceMw <
      idxOf (appMiddlewares c) Middleware.oidcMw ∧
    (Middleware.sharedBasicAuth ∈ appMiddlewares c →
      idxOf (appMiddlewares c) Middleware.sharedBasicAuth <
        idxOf (appMiddlewares c) Middleware.namespaceMw) ∧
    ((c.authUsername = "" ∨ c.authPassword = "" ∨
        req.creds = Credentials.basic c.authUsername c.authPassword) →
      runPipeline c env req =
        PipelineResult.rejected (Rejection.notFound (namespaceNotFoundResponse req.namespaceCode))) := by
  have hnsPre : Middleware.namespaceMw ∉ mwPre c := fun hm => by
    rcases mem_mwPre c _ hm with h | ⟨h, _⟩ <;> exact Middleware.noConfusion h
  have hidxNs : idxOf (appMiddlewares c) Middleware.namespaceMw = (mwPre c).length := by
    rw [appMiddlewares_decomp]
    rw [show Middleware.namespaceMw :: (mwAuth c ++ _) =
      [Middleware.namespaceMw] ++ (mwAuth c ++ _) from rfl]
    rw [idxOf_append_of_not_mem _ _ _ hnsPre, idxOf_append_of_mem]
    · simp [idxOf]
    · exact List.mem_singleton.2 rfl
  have hidxAfter : ∀ t : Middleware, t ∉ mwPre c → t ≠ Middleware.namespaceMw →
      (mwPre c).length < idxOf (appMiddlewares c) t := by
    intro t hpre hne
    rw [appMiddlewares_decomp, idxOf_append_of_not_mem _ _ _ hpre]
    have hmm : ¬ (Middleware.namespaceMw = t) := fun h => hne (Eq.symm h)
    have : idxOf (Middleware.namespaceMw ::
        (mwAuth c ++ [Middleware.compress, Middleware.recoverMw, Middleware.loggerMw])) t =
        idxOf (mwAuth c ++ [Middleware.compress, Middleware.recoverMw, Middleware.loggerMw]) t + 1 := by
      simp [idxOf, if_neg hmm]
    omega
  have hnotPre : ∀ t : Middleware, t ≠ Middleware.cors → t ≠ Middleware.sharedBasicAuth →
      t ∉ mwPre c := by
    intro t h1 h2 hm
    rcases mem_mwPre c t hm with h | ⟨h, _⟩
    · exact h1 h
    · exact h2 h
  refine ⟨?_, ?_, ?_, ?_⟩
  · rw [hidxNs]
    exact hidxAfter Middleware.userBasicAuthMw
      (hnotPre _ (by simp) (by simp)) (by simp)
  · rw [hidxNs]
    exact hidxAfter Middleware.oidcMw
      (hnotPre _ (by simp) (by simp)) (by simp)
  · intro hmem
    have hpre : Middleware.sharedBasicAuth ∈ mwPre c := by
      rw [appMiddlewares_decomp] at hmem
      rcases List.mem_append.1 hmem with h | h
      · exact h
      · rcases List.mem_cons.1 h with h1 | h1
        · exact Middleware.noConfusion h1
        · rcases List.mem_append.1 h1 with h2 | h2
          · cases hc : c.authType <;> simp [mwAuth, hc] at h2
          · simp at h2
    rw [hidxNs, appMiddlewares_decomp, idxOf_append_of_mem _ _ _ hpre]
    exact idxOf_lt_length_of_mem _ _ hpre
  · intro hcred
    have hpass : ∀ mw ∈ mwPre c, mwStep c env req mw = none := by
      intro mw hm
      rcases mem_mwPre c mw hm with h | ⟨h, hau, hap⟩
      · subst h; rfl
      · subst h
        rcases hcred with h | h | h
        · exact absurd h hau
        · exact absurd h hap
        · simp [mwStep, h]
    rw [runPipeline, appMiddlewares_decomp, runChain_append_of_pass c env req _ _ hpass]
    simp [runChain, mwStep, hns]

/-- Claim C1, witness for the amended theorem at a concrete input. -/
theorem c1_amended_witness :
    runPipeline userModeConfig testEnv
      { namespaceCode := r"ghost", creds := Credentials.anonymous } =
      PipelineResult.rejected (Rejection.notFound (namespaceNotFoundResponse (r"ghost"))) :=
  (c1_amended userModeConfig testEnv
    { namespaceCode := r"ghost", creds := Credentials.anonymous } (by decide)).2.2.2
    (Or.inl rfl)

/-- Claim C3: with roles user1 → ns1, ns2; user2 → ns2, ns3; user3 →
admin, and namespaces ns1, ns2, ns3 existing, a request authenticated
as user1 targeting ns1 proceeds, as user1 targeting ns3 is rejected
with the "does not exist" outcome, and as user3 targeting ns3
proceeds. -/
theorem c3_end_to_end :
    runPipeline userModeConfig testEnv
      { namespaceCode := r"ns1", creds := Credentials.basic (r"user1") (r"user1password") } =
      PipelineResult.proceed ∧
    runPipeline userModeConfig testEnv
      { namespaceCode := r"ns3", creds := Credentials.basic (r"user1") (r"user1password") } =
      PipelineResult.rejected (Rejection.notFound (namespaceNotFoundResponse (r"ns3"))) ∧
    runPipeline userModeConfig testEnv
      { namespaceCode := r"ns3", creds := Credentials.basic (r"user3") (r"user3password") } =
      PipelineResult.proceed := by
  refine ⟨?_, ?_, ?_⟩ <;> decide

/-- Claim C6: server construction is fatal on startup error — if the
namespace notification listener cannot be created, or the initial
synchronous load of the cached namespace repository or the cached role
repository fails, then `createApp` returns an error, and so does
`NewServer`; no application value is produced. -/
theorem c6_fatal_startup (c : Config)
    (storageRes dbRes listenerRes oidcRes adminRes chooserRes : Except String Unit)
    (nsLoad : Except String (List Namespace)) (roleLoad : Except String (List Role))
    (hfail : isErr listenerRes = true ∨ isErr nsLoad = true ∨ isErr roleLoad = true) :
    isErr (createApp c listenerRes nsLoad roleLoad oidcRes adminRes chooserRes) = true ∧
    isErr (NewServer c storageRes dbRes listenerRes nsLoad roleLoad
      oidcRes adminRes chooserRes) = true := by
  have happ : isErr (createApp c listenerRes nsLoad roleLoad oidcRes adminRes chooserRes) = true := by
    cases listenerRes with
    | error e => rfl
    | ok _ =>
        cases nsLoad with
        | error e => rfl
        | ok nss =>
            cases roleLoad with
            | error e => rfl
            | ok rs => rcases hfail with h | h | h <;> simp [isErr] at h
  refine ⟨happ, ?_⟩
  cases storageRes with
  | error e => rfl
  | ok _ =>
      cases dbRes with
      | error e => rfl
      | ok _ =>
          simp only [NewServer]
          cases hca : createApp c listenerRes nsLoad roleLoad oidcRes adminRes chooserRes with
          | error e => rfl
          | ok app => rw [hca] at happ; simp [isErr] at happ

/-- Claim C6, witness: a failed listener construction aborts both
`createApp` and `NewServer` at a concrete input. -/
theorem c6_fatal_startup_witness :
    isErr (createApp userModeConfig (Except.error ("listen failed"))
      (Except.ok ([] : List Namespace)) (Except.ok ([] : List Role))
      (Except.ok ()) (Except.ok ()) (Except.ok ())) = true ∧
    isErr (NewServer userModeConfig (Except.ok ()) (Except.ok ())
      (Except.error ("listen failed")) (Except.ok ([] : List Namespace))
      (Except.ok ([] : List Role)) (Except.ok ()) (Except.ok ()) (Except.ok ())) = true :=
  c6_fatal_startup userModeConfig (Except.ok ()) (Except.ok ())
    (Except.error ("listen failed")) (Except.ok ()) (Except.ok ()) (Except.ok ())
    (Except.ok ([] : List Namespace)) (Except.ok ([] : List Role)) (Or.inl rfl)

/-- Claim C7: `GetTagsByNamespace` discards its fetched result — for
every database state and namespace ID, a successful fetch yields the
empty tag list, and only a failed fetch yields an error. -/
theorem c7_tags_discarded (nid : Nat) (fetchRes : Except String (List Tag)) :
    (∀ tags, fetchRes = Except.ok tags → GetTagsByNamespace nid fetchRes = Except.ok []) ∧
    (∀ e, fetchRes = Except.error e → GetTagsByNamespace nid fetchRes = Except.error e) := by
  constructor
  · rintro tags rfl; rfl
  · rintro e rfl; rfl

/-- Claim C7, witness: a successful fetch of one tag row still returns
the empty list. -/
theorem c7_tags_discarded_witness :
    GetTagsByNamespace 1 (Except.ok [{ key := "k", value := "v", runUUID := "r" }]) =
      Except.ok [] :=
  (c7_tags_discarded 1 (Except.ok [{ key := "k", value := "v", runUUID := "r" }])).1
    [{ key := "k", value := "v", runUUID := "r" }] rfl

/-- Claim C2: under the per-user auth scheme, an authenticated user who
is not permitted an existing namespace and the same user targeting an
absent namespace receive rejection payloads built by the same
constructor — reason code `RESOURCE_DOES_NOT_EXIST` and message
`unable to find namespace with code: <code>` in both cases — and no
request is ever rejected with a distinct forbidden outcome. -/
theorem c2_existence_hiding (c : Config) (env : Env) (u p code1 code2 : String)
    (entry : YamlUserConfig)
    (hmode : c.authType = AuthType.user)
    (hshared : c.authUsername = "")
    (hlook : lookupUser c.authUsers u = some entry)
    (hpass : entry.password = p)
    (hadmin : isAdminUser c.authUsers u = false)
    (hperm : permitsNamespace c.authUsers u code1 = false)
    (hex : code1 ∈ env.namespaces)
    (hnex : code2 ∉ env.namespaces) :
    runPipeline c env { namespaceCode := code1, creds := Credentials.basic u p } =
      PipelineResult.rejected (Rejection.notFound (namespaceNotFoundResponse code1)) ∧
    runPipeline c env { namespaceCode := code2, creds := Credentials.basic u p } =
      PipelineResult.rejected (Rejection.notFound (namespaceNotFoundResponse code2)) ∧
    (namespaceNotFoundResponse code1).code = (namespaceNotFoundResponse code2).code ∧
    (∀ req : Request, ∀ pl : ErrorResponse,
      runPipeline c env req ≠ PipelineResult.rejected (Rejection.forbidden pl)) := by
  have hpassPre : ∀ req : Request, ∀ mw ∈ mwPre c, mwStep c env req mw = none := by
    intro req mw hm
    rcases mem_mwPre c mw hm with h | ⟨h, hau, _⟩
    · subst h; rfl
    · exact absurd hshared hau
  have hauthMw : mwAuth c = [Middleware.userBasicAuthMw] := by
    simp [mwAuth, hmode]
  refine ⟨?_, ?_, rfl, ?_⟩
  · rw [runPipeline, appMiddlewares_decomp, runChain_append_of_pass c env _ _ _ (hpassPre _)]
    simp [runChain, mwStep, hex, hauthMw, hlook, hpass, authorizeUser, hadmin, hperm]
  · rw [runPipeline, appMiddlewares_decomp, runChain_append_of_pass c env _ _ _ (hpassPre _)]
    simp [runChain, mwStep, hnex]
  · intro req pl
    exact runChain_not_forbidden c env req pl (appMiddlewares c)

/-- Claim C2, witness: user1 rejected on the existing namespace ns3 and
on the absent namespace ghost, with the same payload constructor. -/
theorem c2_existence_hiding_witness :
    runPipeline userModeConfig testEnv
      { namespaceCode := r"ns3", creds := Credentials.basic (r"user1") (r"user1password") } =
      PipelineResult.rejected (Rejection.notFound (namespaceNotFoundResponse (r"ns3"))) ∧
    runPipeline userModeConfig testEnv
      { namespaceCode := r"ghost", creds := Credentials.basic (r"user1") (r"user1password") } =
      PipelineResult.rejected (Rejection.notFound (namespaceNotFoundResponse (r"ghost"))) := by
  have h := c2_existence_hiding userModeConfig testEnv (r"user1") (r"user1password")
    (r"ns3") (r"ghost") user1Entry rfl rfl (by decide) rfl (by decide) (by decide)
    (by decide) (by decide)
  exact ⟨h.1, h.2.1⟩

/-- Claim C4: admin override — a user bound to an admin-flagged role
passes the authorization check for every namespace code, and a request
it authenticates for any existing namespace proceeds through the whole
chain, irrespective of its other per-namespace role bindings. -/
theorem c4_admin_override (c : Config) (env : Env) (u p code : String)
    (entry : YamlUserConfig)
    (hmode : c.authType = AuthType.user)
    (hshared : c.authUsername = "")
    (hlook : lookupUser c.authUsers u = some entry)
    (hpass : entry.password = p)
    (hadmin : isAdminUser c.authUsers u = true)
    (hex : code ∈ env.namespaces) :
    authorizeUser c.authUsers u code = true ∧
    runPipeline c env { namespaceCode := code, creds := Credentials.basic u p } =
      PipelineResult.proceed := by
  have hauth : authorizeUser c.authUsers u code = true := by
    simp [authorizeUser, hadmin]
  have hpassPre : ∀ req : Request, ∀ mw ∈ mwPre c, mwStep c env req mw = none := by
    intro req mw hm
    rcases mem_mwPre c mw hm with h | ⟨h, hau, _⟩
    · subst h; rfl
    · exact absurd hshared hau
  have hauthMw : mwAuth c = [Middleware.userBasicAuthMw] := by
    simp [mwAuth, hmode]
  refine ⟨hauth, ?_⟩
  rw [runPipeline, appMiddlewares_decomp, runChain_append_of_pass c env _ _ _ (hpassPre _)]
  simp [runChain, mwStep, hex, hauthMw, hlook, hpass, hauth]

/-- Claim C4, witness: user3 (admin) proceeds into ns1 although its
roles name no namespace explicitly. -/
theorem c4_admin_override_witness :
    authorizeUser testUsers (r"user3") (r"ns1") = true ∧
    runPipeline userModeConfig testEnv
      { namespaceCode := r"ns1", creds := Credentials.basic (r"user3") (r"user3password") } =
      PipelineResult.proceed :=
  c4_admin_override userModeConfig testEnv (r"user3") (r"user3password") (r"ns1")
    user3Entry rfl rfl (by decide) rfl (by decide) (by decide)

/-- Claim C5: with an active namespace holding code C in the store,
creating another namespace with code C fails with ConstraintViolation,
and updating a different namespace's code to C fails with
ConstraintViolation; in both cases the store afterwards is exactly what
it was before the attempt. -/
theorem c5_code_uniqueness (store : List Namespace) (m target ns : Namespace)
    (newDescription : String)
    (hm : m ∈ store) (hact : m.isActive = true) (hcode : ns.code = m.code)
    (htarget : target ∈ store) (hne : target.id ≠ m.id) :
    storeCreate store ns = Except.error StoreError.constraintViolation ∧
    storeAfter store (storeCreate store ns) = store ∧
    storeUpdate store target.id m.code newDescription =
      Except.error StoreError.constraintViolation ∧
    storeAfter store (storeUpdate store target.id m.code newDescription) = store := by
  have hcreate : storeCreate store ns = Except.error StoreError.constraintViolation := by
    by_cases hc0 : ns.code = ""
    · simp [storeCreate, hc0]
    · have hany : store.any (fun x => x.isActive && x.code == ns.code) = true :=
        List.any_eq_true.2 ⟨m, hm, by simp [hact, hcode]⟩
      simp [storeCreate, hc0, hany]
  have hupdate : storeUpdate store target.id m.code newDescription =
      Except.error StoreError.constraintViolation := by
    cases hf : store.find? (fun x => x.id == target.id) with
    | none =>
        have hn := List.find?_eq_none.1 hf target htarget
        simp at hn
    | some x =>
        by_cases hc0 : m.code = ""
        · simp [storeUpdate, hf, hc0]
        · have hmne : (m.id != target.id) = true := by
            simp only [bne_iff_ne, ne_eq]
            exact fun h => hne (Eq.symm h)
          have hany : store.any
              (fun x => x.isActive && (x.id != target.id) && (x.code == m.code)) = true :=
            List.any_eq_true.2 ⟨m, hm, by simp [hact, hmne]⟩
          simp [storeUpdate, hf, hc0, hany]
  exact ⟨hcreate, by rw [hcreate]; rfl, hupdate, by rw [hupdate]; rfl⟩

/-- Claim C5, witness: with namespaces default and test2 in the store,
creating a second "default" and updating test2's code to "default" both
fail with ConstraintViolation and leave the store unchanged. -/
theorem c5_code_uniqueness_witness :
    storeCreate [nsDefault, nsTest2] nsDup = Except.error StoreError.constraintViolation ∧
    storeAfter [nsDefault, nsTest2] (storeCreate [nsDefault, nsTest2] nsDup) =
      [nsDefault, nsTest2] ∧
    storeUpdate [nsDefault, nsTest2] nsTest2.id nsDefault.code (r"test namespace updated") =
      Except.error StoreError.constraintViolation ∧
    storeAfter [nsDefault, nsTest2]
      (storeUpdate [nsDefault, nsTest2] nsTest2.id nsDefault.code (r"test namespace updated")) =
      [nsDefault, nsTest2] :=
  c5_code_uniqueness [nsDefault, nsTest2] nsDefault nsTest2 nsDup
    (r"test namespace updated") (by decide) rfl rfl (by decide) (by decide)

theorem sumValues_bump (m : List (Int × Nat)) (k : Int) :
    sumValues (bump m k) = sumValues m + 1 := by
  induction m with
  | nil => simp [bump, sumValues]
  | cons kv rest ih =>
      obtain ⟨k2, v⟩ := kv
      by_cases hk : k2 = k
      · simp [bump, hk, sumValues]
        omega
      · simp only [bump, if_neg hk, sumValues, List.map_cons, List.sum_cons]
        have ih2 : ((bump rest k).map Prod.snd).sum = (rest.map Prod.snd).sum + 1 := ih
        omega

theorem activityLoop_spec (tz : Int) (runs : List Run) :
    ∀ (act : List (Int × Nat)) (na nar : Int),
      sumValues (activityLoop tz runs act na nar).1 = sumValues act + runs.length ∧
      (activityLoop tz runs act na nar).2.1 = na + ((runs.filter isActiveRun).length : Int) ∧
      (activityLoop tz runs act na nar).2.2 = nar + ((runs.filter isArchivedRun).length : Int) := by
  induction runs with
  | nil => intro act na nar; simp [activityLoop]
  | cons r rest ih =>
      intro act na nar
      by_cases hd : r.lifecycleStage = LifecycleStage.deleted
      · have h1 : isArchivedRun r = true := by simp [isArchivedRun, hd]
        have h2 : isActiveRun r = false := by simp [isActiveRun, hd]
        obtain ⟨ha, hb, hc⟩ := ih (bump act (activityKey tz r)) na (nar + 1)
        simp only [activityLoop, if_pos hd]
        refine ⟨?_, ?_, ?_⟩
        · rw [ha, sumValues_bump]
          simp
          omega
        · rw [hb]
          simp [List.filter_cons, h2]
        · rw [hc]
          simp [List.filter_cons, h1]
          ring
      · by_cases hs : r.status = RunStatus.running
        · have h1 : isArchivedRun r = false := by simp [isArchivedRun, hd]
          have h2 : isActiveRun r = true := by simp [isActiveRun, hd, hs]
          obtain ⟨ha, hb, hc⟩ := ih (bump act (activityKey tz r)) (na + 1) nar
          simp only [activityLoop, if_neg hd, if_pos hs]
          refine ⟨?_, ?_, ?_⟩
          · rw [ha, sumValues_bump]
            simp
            omega
          · rw [hb]
            simp [List.filter_cons, h2]
            ring
          · rw [hc]
            simp [List.filter_cons, h1]
        · have h1 : isArchivedRun r = false := by simp [isArchivedRun, hd]
          have h2 : isActiveRun r = false := by simp [isActiveRun, hd, hs]
          obtain ⟨ha, hb, hc⟩ := ih (bump act (activityKey tz r)) na nar
          simp only [activityLoop, if_neg hd, if_neg hs]
          refine ⟨?_, ?_, ?_⟩
          · rw [ha, sumValues_bump]
            simp
            omega
          · rw [hb]
            simp [List.filter_cons, h2]
          · rw [hc]
            simp [List.filter_cons, h1]

/-- Claim C9: for every list of runs returned by the run repository,
`GetProjectActivity` reports NumRuns as the total number of runs
(deleted ones included), the activity-map counters sum to NumRuns
(every run bumps exactly one hour bucket), deleted runs are counted as
archived and never as active even when their status is running, and
active runs are exactly the non-deleted running ones. -/
theorem c9_project_activity (runs : List Run) (numExp tz : Int) :
    ∃ pa : ProjectActivity,
      GetProjectActivity (Except.ok runs) (Except.ok numExp) tz = Except.ok pa ∧
      pa.numRuns = (runs.length : Int) ∧
      (sumValues pa.activityMap : Int) = pa.numRuns ∧
      pa.numArchivedRuns = ((runs.filter isArchivedRun).length : Int) ∧
      pa.numActiveRuns = ((runs.filter isActiveRun).length : Int) ∧
      pa.numExperiments = numExp := by
  obtain ⟨ha, hb, hc⟩ := activityLoop_spec tz runs [] 0 0
  refine ⟨_, rfl, rfl, ?_, ?_, ?_, rfl⟩
  · show (sumValues (activityLoop tz runs [] 0 0).1 : Int) = (runs.length : Int)
    rw [ha]
    simp [sumValues]
  · show (activityLoop tz runs [] 0 0).2.2 = _
    rw [hc]
    simp
  · show (activityLoop tz runs [] 0 0).2.1 = _
    rw [hb]
    simp

/-- Claim C10: in `GetProjectParams` on a normalised, validated request —
when ExcludeParams is set, neither param keys nor tag keys are fetched
(the result does not depend on those fetch outcomes) and both fields
stay empty; metric keys are fetched and populated exactly when the
request's Sequences list names "metric"; and a repository error in any
performed fetch makes the whole call return an internal error with no
partial result. -/
theorem c10_project_params (req : GetProjectParamsRequest)
    (pk pk2 tk tk2 m m2 : Except String (List String)) :
    (req.excludeParams = true →
      GetProjectParams none pk tk m req = GetProjectParams none pk2 tk2 m req ∧
      (∀ pp, GetProjectParams none pk tk m req = Except.ok pp →
        pp.paramKeys = [] ∧ pp.tagKeys = [])) ∧
    (req.sequences.contains metricSequence = false →
      GetProjectParams none pk tk m req = GetProjectParams none pk tk m2 req ∧
      (∀ pp, GetProjectParams none pk tk m req = Except.ok pp → pp.metrics = [])) ∧
    (∀ ms pp, req.sequences.contains metricSequence = true → m = Except.ok ms →
      GetProjectParams none pk tk m req = Except.ok pp → pp.metrics = ms) ∧
    (req.excludeParams = false → ∀ e, pk = Except.error e →
      GetProjectParams none pk tk m req =
        Except.error (ApiError.internalError ("error getting param keys: " ++ e))) ∧
    (req.excludeParams = false → ∀ pks e, pk = Except.ok pks → tk = Except.error e →
      GetProjectParams none pk tk m req =
        Except.error (ApiError.internalError ("error getting tag keys: " ++ e))) ∧
    (∀ e, req.sequences.contains metricSequence = true → m = Except.error e →
      req.excludeParams = true →
      GetProjectParams none pk tk m req =
        Except.error (ApiError.internalError ("error getting metrics: " ++ e))) ∧
    (∀ e pks tks, req.sequences.contains metricSequence = true → m = Except.error e →
      pk = Except.ok pks → tk = Except.ok tks →
      GetProjectParams none pk tk m req =
        Except.error (ApiError.internalError ("error getting metrics: " ++ e))) := by
  refine ⟨?_, ?_, ?_, ?_, ?_, ?_, ?_⟩
  · intro hex
    by_cases hm : metricSequence ∈ req.sequences
    · constructor
      · cases m <;> simp [GetProjectParams, hex, hm]
      · intro pp h
        cases m with
        | error e => simp [GetProjectParams, hex, hm] at h
        | ok ms =>
            simp [GetProjectParams, hex, hm] at h
            simp [← h]
    · constructor
      · cases m <;> simp [GetProjectParams, hex, hm]
      · intro pp h
        cases m <;> simp [GetProjectParams, hex, hm] at h <;> simp [← h]
  · intro hc
    have hm : metricSequence ∉ req.sequences := by simpa using hc
    constructor
    · cases hex : req.excludeParams <;> cases pk <;> cases tk <;>
        simp [GetProjectParams, hex, hm]
    · intro pp h
      cases hex : req.excludeParams <;> cases pk <;> cases tk <;>
        simp [GetProjectParams, hex, hm] at h <;> simp [← h]
  · intro ms pp hc hmm h
    have hmem : metricSequence ∈ req.sequences := by simpa using hc
    subst hmm
    cases hex : req.excludeParams <;> cases pk <;> cases tk <;>
      simp [GetProjectParams, hex, hmem] at h <;> simp [← h]
  · intro hex e hpk
    subst hpk
    simp [GetProjectParams, hex]
  · intro hex pks e hpk htk
    subst hpk; subst htk
    simp [GetProjectParams, hex]
  · intro e hc hmm hex
    have hmem : metricSequence ∈ req.sequences := by simpa using hc
    subst hmm
    simp [GetProjectParams, hex, hmem]
  · intro e pks tks hc hmm hpk htk
    have hmem : metricSequence ∈ req.sequences := by simpa using hc
    subst hmm; subst hpk; subst htk
    cases hex : req.excludeParams <;> simp [GetProjectParams, hex, hmem]

/-- Claim C10, witness: with ExcludeParams set and no metric sequence,
the call ignores a failing param-keys fetch and returns empty fields. -/
theorem c10_project_params_witness :
    GetProjectParams none (Except.error ("boom")) (Except.ok [r"t"]) (Except.ok [r"m"])
      { excludeParams := true, sequences := [], experimentNames := [] } =
      GetProjectParams none (Except.ok [r"p"]) (Except.ok [r"t2"]) (Except.ok [r"m"])
      { excludeParams := true, sequences := [], experimentNames := [] } :=
  ((c10_project_params
    { excludeParams := true, sequences := [], experimentNames := [] }
    (Except.error ("boom")) (Except.ok [r"p"]) (Except.ok [r"t"]) (Except.ok [r"t2"])
    (Except.ok [r"m"]) (Except.ok [r"m"])).1 rfl).1

theorem sameRunKey_iff (a b : Param) :
    sameRunKey a b = true ↔ (a.runUUID = b.runUUID ∧ a.key = b.key) := by
  simp [sameRunKey]

theorem sameRunKey_refl (a : Param) : sameRunKey a a = true := by
  simp [sameRunKey]

theorem sameRunKey_symm (a b : Param) : sameRunKey a b = sameRunKey b a := by
  rw [Bool.eq_iff_iff, sameRunKey_iff, sameRunKey_iff]
  constructor <;> rintro ⟨h1, h2⟩ <;> exact ⟨h1.symm, h2.symm⟩

theorem sameRunKey_trans (a b c : Param) (h1 : sameRunKey a b = true)
    (h2 : sameRunKey b c = true) : sameRunKey a c = true := by
  rw [sameRunKey_iff] at h1 h2 ⊢
  exact ⟨h1.1.trans h2.1, h1.2.trans h2.2⟩

theorem eq_of_mem_same_key (l : List Param) (hu : uniqueRunKeys l) (a b : Param)
    (ha : a ∈ l) (hb : b ∈ l) (hk : sameRunKey a b = true) : a = b := by
  by_contra hne
  have hsymm : Symmetric (fun x y : Param => sameRunKey x y = false) := by
    intro x y h
    rw [sameRunKey_symm]
    exact h
  have hfalse := List.Pairwise.forall hsymm hu ha hb hne
  rw [hfalse] at hk
  exact Bool.noConfusion hk

theorem any_false_forall (l : List Param) (p : Param)
    (h : l.any (fun q => sameRunKey q p) = false) :
    ∀ q ∈ l, sameRunKey q p = false := by
  intro q hq
  cases hsk : sameRunKey q p with
  | false => rfl
  | true =>
      have hT : l.any (fun q2 => sameRunKey q2 p) = true :=
        List.any_eq_true.2 ⟨q, hq, hsk⟩
      rw [h] at hT
      exact Bool.noConfusion hT

theorem insertBatch_cons_dup (table : List Param) (p : Param) (rest : List Param)
    (h : table.any (fun q => sameRunKey q p) = true) :
    insertBatch table (p :: rest) = insertBatch table rest := by
  simp [insertBatch, h]

theorem insertBatch_cons_new (table : List Param) (p : Param) (rest : List Param)
    (h : table.any (fun q => sameRunKey q p) = false) :
    insertBatch table (p :: rest) =
      ((insertBatch (table ++ [p]) rest).1, (insertBatch (table ++ [p]) rest).2 + 1) := by
  simp [insertBatch, h]

theorem insertBatch_le (ps : List Param) :
    ∀ table, (insertBatch table ps).2 ≤ ps.length := by
  induction ps with
  | nil => intro table; simp [insertBatch]
  | cons p rest ih =>
      intro table
      cases hany : table.any (fun q => sameRunKey q p) with
      | true =>
          rw [insertBatch_cons_dup _ _ _ hany, List.length_cons]
          exact Nat.le_succ_of_le (ih table)
      | false =>
          rw [insertBatch_cons_new _ _ _ hany, List.length_cons]
          exact Nat.succ_le_succ (ih (table ++ [p]))

theorem insertBatch_mem_orig (ps : List Param) :
    ∀ table q, q ∈ table → q ∈ (insertBatch table ps).1 := by
  induction ps with
  | nil => intro table q hq; simpa [insertBatch] using hq
  | cons p rest ih =>
      intro table q hq
      cases hany : table.any (fun q2 => sameRunKey q2 p) with
      | true =>
          rw [insertBatch_cons_dup _ _ _ hany]
          exact ih table q hq
      | false =>
          rw [insertBatch_cons_new _ _ _ hany]
          exact ih (table ++ [p]) q (List.mem_append_left _ hq)

theorem insertBatch_mem_char (ps : List Param) :
    ∀ table q, q ∈ (insertBatch table ps).1 →
      q ∈ table ∨ (q ∈ ps ∧ ∀ q2 ∈ table, sameRunKey q2 q = false) := by
  induction ps with
  | nil => intro table q hq; left; simpa [insertBatch] using hq
  | cons p rest ih =>
      intro table q hq
      cases hany : table.any (fun q2 => sameRunKey q2 p) with
      | true =>
          rw [insertBatch_cons_dup _ _ _ hany] at hq
          rcases ih table q hq with h | ⟨h1, h2⟩
          · exact Or.inl h
          · exact Or.inr ⟨List.mem_cons_of_mem p h1, h2⟩
      | false =>
          rw [insertBatch_cons_new _ _ _ hany] at hq
          rcases ih (table ++ [p]) q hq with h | ⟨h1, h2⟩
          · rcases List.mem_append.1 h with h3 | h3
            · exact Or.inl h3
            · have hqp : q = p := by simpa using h3
              subst hqp
              exact Or.inr ⟨List.mem_cons_self q rest, any_false_forall table q hany⟩
          · exact Or.inr ⟨List.mem_cons_of_mem p h1,
              fun q2 hq2 => h2 q2 (List.mem_append_left _ hq2)⟩

theorem insertBatch_pairwise (ps : List Param) :
    ∀ table, uniqueRunKeys table → uniqueRunKeys (insertBatch table ps).1 := by
  induction ps with
  | nil => intro table hu; simpa [insertBatch] using hu
  | cons p rest ih =>
      intro table hu
      cases hany : table.any (fun q2 => sameRunKey q2 p) with
      | true =>
          rw [insertBatch_cons_dup _ _ _ hany]
          exact ih table hu
      | false =>
          rw [insertBatch_cons_new _ _ _ hany]
          refine ih (table ++ [p]) ?_
          simp only [uniqueRunKeys] at hu ⊢
          rw [List.pairwise_append]
          refine ⟨hu, by simp, ?_⟩
          intro a ha b hb
          have hb2 : b = p := by simpa using hb
          subst hb2
          exact any_false_forall table b hany a ha

theorem insertBatch_all_dup (ps : List Param) :
    ∀ table, (∀ p ∈ ps, p ∈ table) → insertBatch table ps = (table, 0) := by
  induction ps with
  | nil => intro table _; rfl
  | cons p rest ih =>
      intro table hall
      have hp : p ∈ table := hall p (List.mem_cons_self p rest)
      have hany : table.any (fun q2 => sameRunKey q2 p) = true :=
        List.any_eq_true.2 ⟨p, hp, sameRunKey_refl p⟩
      rw [insertBatch_cons_dup _ _ _ hany]
      exact ih table fun x hx => hall x (List.mem_cons_of_mem p hx)

theorem insertBatch_full (ps : List Param) :
    ∀ table, (insertBatch table ps).2 = ps.length →
      ∀ p ∈ ps, ∀ q ∈ (insertBatch table ps).1, sameRunKey q p = true → q = p := by
  induction ps with
  | nil => intro table _ p hp; exact absurd hp (List.not_mem_nil p)
  | cons p0 rest ih =>
      intro table hlen p hp q hq hk
      cases hany : table.any (fun q2 => sameRunKey q2 p0) with
      | true =>
          rw [insertBatch_cons_dup _ _ _ hany] at hlen
          have hle := insertBatch_le rest table
          rw [hlen, List.length_cons] at hle
          omega
      | false =>
          rw [insertBatch_cons_new _ _ _ hany] at hlen hq
          have hlen2 : (insertBatch (table ++ [p0]) rest).2 = rest.length := by
            rw [List.length_cons] at hlen
            omega
          rcases List.mem_cons.1 hp with hp0 | hprest
          · subst hp0
            rcases insertBatch_mem_char rest (table ++ [p]) q hq with h | ⟨h1, h2⟩
            · rcases List.mem_append.1 h with h3 | h3
              · have hqf := any_false_forall table p hany q h3
                rw [hqf] at hk
                exact Bool.noConfusion hk
              · simpa using h3
            · have hfresh := h2 p (List.mem_append_right _ (List.mem_singleton.2 rfl))
              rw [sameRunKey_symm] at hfresh
              rw [hfresh] at hk
              exact Bool.noConfusion hk
          · exact ih (table ++ [p0]) hlen2 p hprest q hq hk

theorem conflicts_nonempty_iff (t ps : List Param) (hu : uniqueRunKeys t) :
    findConflictingParams t ps ≠ [] ↔
      ∃ p ∈ ps, ∃ q ∈ t, sameRunKey q p = true ∧ q.value ≠ p.value := by
  constructor
  · intro hne
    rcases List.exists_mem_of_ne_nil _ hne with ⟨c, hc⟩
    rcases List.mem_filterMap.1 hc with ⟨p, hp, hf⟩
    cases hfind : t.find? (fun q => sameRunKey q p) with
    | none =>
        rw [hfind] at hf
        simp at hf
    | some q =>
        rw [hfind] at hf
        by_cases hv : q.value ≠ p.value
        · have hqm := List.mem_of_find?_eq_some hfind
          have hqk := List.find?_some hfind
          exact ⟨p, hp, q, hqm, hqk, hv⟩
        · simp [hv] at hf
  · rintro ⟨p, hp, q, hq, hk, hv⟩
    intro hnil
    have hsome : ∃ q0, t.find? (fun q2 => sameRunKey q2 p) = some q0 := by
      cases hfind : t.find? (fun q2 => sameRunKey q2 p) with
      | some q0 => exact ⟨q0, rfl⟩
      | none =>
          have hnone := List.find?_eq_none.1 hfind q hq
          rw [hk] at hnone
          exact absurd rfl hnone
    rcases hsome with ⟨q0, hfind⟩
    have hq0t : q0 ∈ t := List.mem_of_find?_eq_some hfind
    have hq0k0 := List.find?_some hfind
    have hq0k : sameRunKey q0 p = true := hq0k0
    have hq0q : q0 = q := by
      apply eq_of_mem_same_key t hu q0 q hq0t hq
      refine sameRunKey_trans q0 p q hq0k ?_
      rw [sameRunKey_symm]
      exact hk
    subst hq0q
    have hmem : (⟨p.runUUID, p.key, q0.value, p.value⟩ : ParamConflict) ∈
        findConflictingParams t ps := by
      apply List.mem_filterMap.2
      refine ⟨p, hp, ?_⟩
      rw [hfind]
      simp only [if_pos hv]
    rw [hnil] at hmem
    exact absurd hmem (List.not_mem_nil _)

/-- Claim C8, counterexample: with an empty params table and a batch
holding two rows with the same `(run_uuid, key)` and different values,
`CreateBatch` returns a `ParamConflictError` although no input param's
`(run_uuid, key)` pair was already present in the params table before
the call — the conflict probe also sees rows inserted earlier from the
same batch. -/
theorem c8_counterexample :
    isErr (CreateBatch []
      [{ runUUID := "r", key := "k", value := "a" },
       { runUUID := "r", key := "k", value := "b" }]) = true ∧
    ¬ ∃ p ∈ [({ runUUID := "r", key := "k", value := "a" } : Param),
        { runUUID := "r", key := "k", value := "b" }], ∃ q ∈ ([] : List Param),
        sameRunKey q p = true ∧ q.value ≠ p.value := by
  constructor
  · decide
  · rintro ⟨p, hp, q, hq, h⟩
    exact absurd hq (List.not_mem_nil q)

/-- Claim C8, amended: on a params table satisfying the `(run_uuid,
key)` unique constraint, `CreateBatch` returns a `ParamConflictError`
exactly when some input param's `(run_uuid, key)` is present with a
different value in the table as it stands after the conflict-ignoring
insert — that is, in a pre-existing row or in a row inserted earlier
from the same batch; input params exactly duplicating existing rows are
silently ignored and leave the table unchanged; on error the transaction
rolls back so the table is unchanged; and a conflict with a pre-existing
row always yields the error. -/
theorem c8_amended (table ps : List Param) (hu : uniqueRunKeys table) :
    (isErr (CreateBatch table ps) = true ↔
      ∃ p ∈ ps, ∃ q ∈ (insertBatch table ps).1,
        sameRunKey q p = true ∧ q.value ≠ p.value) ∧
    (isErr (CreateBatch table ps) = true → paramsTableAfter table ps = table) ∧
    ((∀ p ∈ ps, p ∈ table) → CreateBatch table ps = Except.ok table) ∧
    ((∃ p ∈ ps, ∃ q ∈ table, sameRunKey q p = true ∧ q.value ≠ p.value) →
      isErr (CreateBatch table ps) = true) := by
  have hut : uniqueRunKeys (insertBatch table ps).1 := insertBatch_pairwise ps table hu
  have hiff : isErr (CreateBatch table ps) = true ↔
      findConflictingParams (insertBatch table ps).1 ps ≠ [] := by
    by_cases hlen : (insertBatch table ps).2 = ps.length
    · have hempty : findConflictingParams (insertBatch table ps).1 ps = [] := by
        simp only [findConflictingParams]
        apply List.filterMap_eq_nil_iff.2
        intro p hp
        cases hfind : (insertBatch table ps).1.find? (fun q => sameRunKey q p) with
        | none => rfl
        | some q =>
            have hqm := List.mem_of_find?_eq_some hfind
            have hqk0 := List.find?_some hfind
            have hqk : sameRunKey q p = true := hqk0
            have hqp : q = p := insertBatch_full ps table hlen p hp q hqm hqk
            subst hqp
            simp
      rw [hempty]
      simp [CreateBatch, hlen, isErr]
    · by_cases hconf : findConflictingParams (insertBatch table ps).1 ps = []
      · rw [hconf]
        simp [CreateBatch, hlen, hconf, isErr]
      · simp [CreateBatch, hlen, hconf, isErr]
  have hmain := hiff.trans (conflicts_nonempty_iff (insertBatch table ps).1 ps hut)
  refine ⟨hmain, ?_, ?_, ?_⟩
  · intro herr
    cases hcb : CreateBatch table ps with
    | ok t2 =>
        rw [hcb] at herr
        simp [isErr] at herr
    | error e => simp [paramsTableAfter, hcb]
  · intro hall
    have hib := insertBatch_all_dup ps table hall
    by_cases hps : ps = []
    · subst hps
      simp [CreateBatch, insertBatch]
    · have h0 : (0 : Nat) ≠ ps.length := fun h0 => hps (List.length_eq_zero.1 h0.symm)
      have hconf0 : findConflictingParams table ps = [] := by
        simp only [findConflictingParams]
        apply List.filterMap_eq_nil_iff.2
        intro p hp
        cases hfind : table.find? (fun q => sameRunKey q p) with
        | none => rfl
        | some q =>
            have hqm := List.mem_of_find?_eq_some hfind
            have hqk0 := List.find?_some hfind
            have hqk : sameRunKey q p = true := hqk0
            have hqp : q = p := eq_of_mem_same_key table hu q p hqm (hall p hp) hqk
            subst hqp
            simp
      simp [CreateBatch, hib, h0, hconf0]
  · rintro ⟨p, hp, q, hq, hk, hv⟩
    exact hmain.mpr ⟨p, hp, q, insertBatch_mem_orig ps table q hq, hk, hv⟩

/-- Claim C8, witness for the amended theorem: one pre-existing row and
a batch changing its value — the call errors and the table is unchanged. -/
theorem c8_amended_witness :
    isErr (CreateBatch [{ runUUID := "r", key := "k", value := "a" }]
      [{ runUUID := "r", key := "k", value := "b" }]) = true ∧
    paramsTableAfter [{ runUUID := "r", key := "k", value := "a" }]
      [{ runUUID := "r", key := "k", value := "b" }] =
      [{ runUUID := "r", key := "k", value := "a" }] := by
  have h := c8_amended [{ runUUID := "r", key := "k", value := "a" }]
    [{ runUUID := "r", key := "k", value := "b" }] (by simp [uniqueRunKeys])
  have herr : isErr (CreateBatch [{ runUUID := "r", key := "k", value := "a" }]
      [{ runUUID := "r", key := "k", value := "b" }]) = true :=
    h.2.2.2 ⟨{ runUUID := "r", key := "k", value := "b" }, by simp,
      { runUUID := "r", key := "k", value := "a" }, by simp, by decide, by decide⟩
  exact ⟨herr, h.2.1 herr⟩
